import Mathlib

/-!
Verification of the control core of the `intervention` repository
(`src/intervention/controller.py`), shallowly embedded over the reals.

Machine floats are modelled as real numbers; `math.inf` (the sentinel
returned by `_turning_radius_to` for a straight path) is modelled by
`⊤ : EReal`.  Logging (`logger.trace`, `print`) binds no names used by the
computation and is modelled as absent.
-/

namespace Intervention

noncomputable section

/-- Componentwise subtraction of 2-D points (numpy `a - b`). -/
def vsub (a b : ℝ × ℝ) : ℝ × ℝ := (a.1 - b.1, a.2 - b.2)

/-- Componentwise addition of 2-D points (numpy `a + b`). -/
def vadd (a b : ℝ × ℝ) : ℝ × ℝ := (a.1 + b.1, a.2 + b.2)

/-- Scalar multiple of a 2-D point (numpy `v * c`). -/
def smul (c : ℝ) (v : ℝ × ℝ) : ℝ × ℝ := (c * v.1, c * v.2)

/-- Division of a 2-D point by a scalar (numpy `v / c`). -/
def sdiv (v : ℝ × ℝ) (c : ℝ) : ℝ × ℝ := (v.1 / c, v.2 / c)

/-- Euclidean norm of a 2-D point (`np.linalg.norm`). -/
def norm2 (v : ℝ × ℝ) : ℝ := Real.sqrt (v.1 ^ 2 + v.2 ^ 2)

/-- Embeds `np.clip(x, lo, hi)`. -/
def clip (x lo hi : ℝ) : ℝ := min (max x lo) hi

/-- numpy `.mean()` of a one-dimensional array. -/
def listMean (l : List ℝ) : ℝ := l.sum / l.length

/-- Column swap `waypoints[..., [1, 0]]` applied to one row. -/
def swapXY (p : ℝ × ℝ) : ℝ × ℝ := (p.2, p.1)

/-- Embeds `_turning_radius_to` from `controller.py`: `math.inf` when `x == 0`,
else `(x² + y²) / (2·|x|)`. -/
def turning_radius_to (x y : ℝ) : EReal :=
  if x = 0 then ⊤
  else (((x ^ 2 + y ^ 2) / (2 * |x|) : ℝ) : EReal)

/-- State of `PidController` (`controller.py`): the three coefficients, the
integral discount, the timestep, the previous error (`None` until the first
committed step) and the running error integral. -/
structure PidController where
  coef_proportional : ℝ
  coef_integral : ℝ
  coef_derivative : ℝ
  integral_discounting : ℝ
  dt : ℝ
  previous_error : Option ℝ
  error_integral : ℝ

/-- Embeds `PidController.__init__`, arguments in source order
(`unit_time_per_step, proportional, integral, derivative,
integral_discounting_per_step`). -/
def mkPidController (unit_time_per_step proportional integral derivative
    discounting : ℝ) : PidController :=
  { coef_proportional := proportional
    coef_integral := integral
    coef_derivative := derivative
    integral_discounting := discounting
    dt := unit_time_per_step
    previous_error := none
    error_integral := 0 }

/-- Embeds `PidController.step`: returns the control output and the state after the
call (the state is returned unchanged when `update` is false). -/
def PidController.step (s : PidController) (error : ℝ) (update : Bool) :
    ℝ × PidController :=
  let error_integral := s.error_integral * (1 - s.integral_discounting)
      + error * s.dt
  let derivative : ℝ :=
    match s.previous_error with
    | some previous => (error - previous) / s.dt
    | none => 0
  let control := 0 + s.coef_proportional * error
      + s.coef_integral * s.error_integral + s.coef_derivative * derivative
  if update then
    (control, { s with previous_error := some error,
                       error_integral := error_integral })
  else
    (control, s)

/-- Loop body of `_interpolate_waypoint_n_meters_ahead`, threading the
accumulators `total_dist`, `prev_pos`, `cur_pos`.  In the post-loop
extrapolation the source divides by the last loop iteration's `dist`, which
equals `‖cur_pos - prev_pos‖` whenever the loop ran (the source raises
`NameError` on an empty array; the contract requires one waypoint). -/
def interpGo (meters : ℝ) : List (ℝ × ℝ) → ℝ → ℝ × ℝ → ℝ × ℝ → ℝ × ℝ
  | [], total_dist, prev_pos, cur_pos =>
      vadd cur_pos (smul (meters - total_dist)
        (sdiv (vsub cur_pos prev_pos) (norm2 (vsub cur_pos prev_pos))))
  | w :: ws, total_dist, _, cur_pos =>
      let dist := norm2 (vsub w cur_pos)
      if meters ≤ total_dist + dist then
        vadd cur_pos (smul (meters - total_dist) (sdiv (vsub w cur_pos) dist))
      else
        interpGo meters ws (total_dist + dist) cur_pos w

/-- Embeds `_interpolate_waypoint_n_meters_ahead` from `controller.py`. -/
def interpolate_waypoint_n_meters_ahead (waypoints : List (ℝ × ℝ))
    (meters : ℝ) : ℝ × ℝ :=
  interpGo meters waypoints 0 (0, 0) (0, 0)

/-- The consecutive-segment distances `np.linalg.norm(targets[:-1] -
targets[1:], axis=1)` of the path starting at `cur`. -/
def segmentDists : List (ℝ × ℝ) → ℝ × ℝ → List ℝ
  | [], _ => []
  | w :: ws, cur => norm2 (vsub w cur) :: segmentDists ws w

/-- Total arc length of the polyline from the origin through `waypoints`. -/
def totalPathLength (waypoints : List (ℝ × ℝ)) : ℝ :=
  (segmentDists waypoints (0, 0)).sum

/-- The (`prev_pos`, `cur_pos`) accumulator pair as it stands after the
interpolation loop exhausts the waypoint list. -/
def lastSegAux : List (ℝ × ℝ) → ℝ × ℝ → ℝ × ℝ → (ℝ × ℝ) × (ℝ × ℝ)
  | [], prev_pos, cur_pos => (prev_pos, cur_pos)
  | w :: ws, _, cur_pos => lastSegAux ws cur_pos w

/-- The actuation triple `carla.VehicleControl(throttle=..., steer=...,
brake=...)`; external simulator type, modelled as its three scalar fields. -/
structure VehicleControl where
  throttle : ℝ
  steer : ℝ
  brake : ℝ

/-- State of `VehicleController`.  The field
`turning_radius_to_steering_angle` is Modelled from the spec: it stands for
`physics.KinematicBicycle.turning_radius_to_steering_angle`
(`src/intervention/physics.py` is not in the sources); the spec constrains
it only at the boundary — a single injected conversion from turning radius
to steering angle, with infinite radius mapping to zero steering angle. -/
structure VehicleController where
  waypoint_step_gap : ℝ
  dt : ℝ
  turning_radius_to_steering_angle : EReal → ℝ
  speed_control : PidController
  brake_control : PidController

/-- Embeds `VehicleController.__init__` with its default arguments
(`waypoint_step_gap=5`, `unit_time_per_step=0.1`); both PID loops are built
with `proportional=0.5, integral=0.05, derivative=0.02`. -/
def mkVehicleController (conv : EReal → ℝ) : VehicleController :=
  { waypoint_step_gap := 5
    dt := 0.1
    turning_radius_to_steering_angle := conv
    speed_control := mkPidController 0.1 0.5 0.05 0.02 0
    brake_control := mkPidController 0.1 0.5 0.05 0.02 0 }

/-- The target speed computed by `VehicleController.step`: mean of the first
(at most 3) consecutive distances of the origin-prepended, axis-swapped
waypoint path, divided by `waypoint_step_gap * dt`. -/
def VehicleController.targetSpeed (c : VehicleController)
    (waypoints : List (ℝ × ℝ)) : ℝ :=
  listMean ((segmentDists (List.map swapXY waypoints) (0, 0)).take 3)
    / (c.waypoint_step_gap * c.dt)

/-- Embeds `VehicleController.step`: returns the actuation triple and the
controller state after the call.  As in the source, the returned `steer`
field is the raw `steering_angle` — the clipped `steering` value is computed
but not used by the returned control. -/
def VehicleController.step (c : VehicleController) (speed : ℝ)
    (waypoints : List (ℝ × ℝ)) (update_pids : Bool) :
    VehicleControl × VehicleController :=
  let ws := List.map swapXY waypoints
  let target_speed := c.targetSpeed waypoints
  let acceleration := target_speed - speed
  let xy := interpolate_waypoint_n_meters_ahead ws 5
  let steering_angle0 :=
    c.turning_radius_to_steering_angle (turning_radius_to xy.1 xy.2)
  let steering_angle := if xy.1 < 0 then -steering_angle0 else steering_angle0
  let tsbc :=
    if target_speed * 60 * 60 / 1000 < 3.5 then
      let br := c.brake_control.step speed update_pids
      ((0 : ℝ), (0 : ℝ), max br.1 0.05, { c with brake_control := br.2 })
    else
      let th := c.speed_control.step acceleration update_pids
      let br := c.brake_control.step (-acceleration) update_pids
      (th.1, steering_angle, br.1,
        { c with speed_control := th.2, brake_control := br.2 })
  let _steering := clip tsbc.2.1 (-1) 1
  ({ throttle := clip tsbc.1 0 1, steer := tsbc.2.1,
     brake := clip tsbc.2.2.1 0 1 }, tsbc.2.2.2)

/-- Concrete controller with the trivial geometry conversion (maps every
radius, infinite radius included, to zero steering angle). -/
def exampleController : VehicleController :=
  mkVehicleController (fun _ => 0)

/-- Concrete controller whose geometry conversion is `EReal.toReal`; it maps
infinite radius to `0` as the spec requires, and a finite radius to itself. -/
def exampleController2 : VehicleController :=
  mkVehicleController EReal.toReal

end

/-! ## Theorems -/

/-- C1: the control output of `PidController.step` is
`proportional·error + integral·(stored integral before this step's update is
committed) + derivative·d`, where `d` differences against the previous error
(0 on the very first step); the integral contribution lags the integral
update by one step. -/
theorem pid_output_uses_preupdate_integral (s : PidController) (e : ℝ)
    (u : Bool) :
    (s.step e u).1 = s.coef_proportional * e
      + s.coef_integral * s.error_integral
      + s.coef_derivative *
        (match s.previous_error with
         | some previous => (e - previous) / s.dt
         | none => 0) := by
  rcases h : s.previous_error with _ | previous <;> cases u <;>
    simp [PidController.step, h]

/-- C5: `PidController.step` with `update=False` leaves the stored previous
error and error integral unchanged, and two consecutive non-updating calls
with the same error return identical outputs. -/
theorem pid_nonupdating_preserves_state (s : PidController) (e : ℝ) :
    (s.step e false).2.previous_error = s.previous_error ∧
    (s.step e false).2.error_integral = s.error_integral ∧
    ((s.step e false).2.step e false).1 = (s.step e false).1 := by
  have h2 : (s.step e false).2 = s := by simp [PidController.step]
  refine ⟨by rw [h2], by rw [h2], by rw [h2]⟩

/-- C9: with integral discounting `1.0`, the integral stored by a committed
step is exactly `error * dt` — no contribution from earlier errors. -/
theorem integral_discount_one_memoryless (s : PidController) (e : ℝ)
    (h : s.integral_discounting = 1) :
    (s.step e true).2.error_integral = e * s.dt := by
  simp [PidController.step, h]

/-- Witness for C9 at the concrete state `mkPidController 1 1 0 0 1` and
error `2`. -/
theorem integral_discount_one_memoryless_witness :
    ((mkPidController 1 1 0 0 1).step 2 true).2.error_integral = 2 := by
  have h := integral_discount_one_memoryless (mkPidController 1 1 0 0 1) 2 rfl
  simpa [mkPidController] using h

/-- C10: the control output of `PidController.step` does not depend on the
`update` flag. -/
theorem pid_output_independent_of_update_flag (s : PidController) (e : ℝ) :
    (s.step e true).1 = (s.step e false).1 := by
  simp [PidController.step]

/-- C7: `_turning_radius_to` is symmetric in the sign of `x` for `x ≠ 0`,
returns `+∞` when `x = 0`, and takes the exact values `0.5` at `(1, 0)` and
`1.0` at `(1, 1)`. -/
theorem turning_radius_properties :
    (∀ x y : ℝ, x ≠ 0 → turning_radius_to x y = turning_radius_to (-x) y) ∧
    (∀ y : ℝ, turning_radius_to 0 y = ⊤) ∧
    turning_radius_to 1 0 = ((0.5 : ℝ) : EReal) ∧
    turning_radius_to 1 1 = ((1 : ℝ) : EReal) := by
  refine ⟨?_, ?_, ?_, ?_⟩
  · intro x y hx
    rw [turning_radius_to, turning_radius_to, if_neg hx,
      if_neg (neg_ne_zero.mpr hx)]
    norm_num
  · intro y
    rw [turning_radius_to, if_pos rfl]
  · rw [turning_radius_to, if_neg (by norm_num : (1 : ℝ) ≠ 0)]
    norm_num
  · rw [turning_radius_to, if_neg (by norm_num : (1 : ℝ) ≠ 0)]
    norm_num

/-- Witness for C7's symmetry part at `x = 2`, `y = 3`. -/
theorem turning_radius_properties_witness :
    turning_radius_to 2 3 = turning_radius_to (-2) 3 :=
  turning_radius_properties.1 2 3 (by norm_num)

lemma norm2_nonneg (v : ℝ × ℝ) : 0 ≤ norm2 v := Real.sqrt_nonneg _

lemma segmentDists_nil (cur : ℝ × ℝ) : segmentDists [] cur = [] := rfl

lemma segmentDists_cons (w : ℝ × ℝ) (ws : List (ℝ × ℝ)) (cur : ℝ × ℝ) :
    segmentDists (w :: ws) cur = norm2 (vsub w cur) :: segmentDists ws w := rfl

lemma lastSegAux_nil (prev cur : ℝ × ℝ) :
    lastSegAux [] prev cur = (prev, cur) := rfl

lemma lastSegAux_cons (w : ℝ × ℝ) (ws : List (ℝ × ℝ)) (prev cur : ℝ × ℝ) :
    lastSegAux (w :: ws) prev cur = lastSegAux ws cur w := rfl

lemma segmentDists_sum_nonneg :
    ∀ (ws : List (ℝ × ℝ)) (cur : ℝ × ℝ), 0 ≤ (segmentDists ws cur).sum := by
  intro ws
  induction ws with
  | nil => intro cur; simp [segmentDists_nil]
  | cons w ws ih =>
    intro cur
    simp only [segmentDists_cons, List.sum_cons]
    have h1 : 0 ≤ norm2 (vsub w cur) := norm2_nonneg _
    have h2 := ih w
    linarith

/-- When `meters` exceeds the remaining path length, the interpolation loop
falls through every waypoint and extrapolates from the final accumulator
pair. -/
lemma interpGo_extrapolate (meters : ℝ) :
    ∀ (ws : List (ℝ × ℝ)) (total : ℝ) (prev cur : ℝ × ℝ),
      total + (segmentDists ws cur).sum < meters →
      interpGo meters ws total prev cur =
        vadd (lastSegAux ws prev cur).2
          (smul (meters - (total + (segmentDists ws cur).sum))
            (sdiv (vsub (lastSegAux ws prev cur).2 (lastSegAux ws prev cur).1)
              (norm2 (vsub (lastSegAux ws prev cur).2
                (lastSegAux ws prev cur).1)))) := by
  intro ws
  induction ws with
  | nil =>
    intro total prev cur h
    simp [interpGo, segmentDists_nil, lastSegAux_nil]
  | cons w ws ih =>
    intro total prev cur h
    have hrest : 0 ≤ (segmentDists ws w).sum := segmentDists_sum_nonneg ws w
    have hsum : total + (segmentDists (w :: ws) cur).sum
        = (total + norm2 (vsub w cur)) + (segmentDists ws w).sum := by
      simp only [segmentDists_cons, List.sum_cons]; ring
    have hlt : ¬ meters ≤ total + norm2 (vsub w cur) := by
      rw [hsum] at h; push_neg; linarith
    simp only [interpGo]
    rw [if_neg hlt]
    rw [ih (total + norm2 (vsub w cur)) cur w (by rw [hsum] at h; linarith)]
    rw [hsum]
    simp [lastSegAux_cons]

/-- C8: for a non-empty waypoint polyline, interpolating at distance 0
returns the origin. -/
theorem interpolate_at_zero (ws : List (ℝ × ℝ)) (h : ws ≠ []) :
    interpolate_waypoint_n_meters_ahead ws 0 = (0, 0) := by
  cases ws with
  | nil => exact absurd rfl h
  | cons w ws' =>
    simp only [interpolate_waypoint_n_meters_ahead, interpGo]
    rw [if_pos (by simpa using norm2_nonneg (vsub w (0, 0)))]
    simp [vadd, smul, sdiv]

/-- Witness for C8 at the single-waypoint polyline `[(1, 0)]`. -/
theorem interpolate_at_zero_witness :
    interpolate_waypoint_n_meters_ahead [(1, 0)] 0 = (0, 0) :=
  interpolate_at_zero [(1, 0)] (by simp)

/-- C6: for a non-empty polyline and a distance strictly beyond the total
polyline length, the interpolator extrapolates linearly past the last
waypoint along the direction of the final segment; in particular the single
waypoint `(0.3, -0.3)` at distance 20 yields `(√200, -√200)`. -/
theorem interpolate_extrapolates (ws : List (ℝ × ℝ)) (meters : ℝ)
    (_h1 : ws ≠ []) (h2 : totalPathLength ws < meters) :
    (interpolate_waypoint_n_meters_ahead ws meters =
      vadd (lastSegAux ws (0, 0) (0, 0)).2
        (smul (meters - totalPathLength ws)
          (sdiv (vsub (lastSegAux ws (0, 0) (0, 0)).2
              (lastSegAux ws (0, 0) (0, 0)).1)
            (norm2 (vsub (lastSegAux ws (0, 0) (0, 0)).2
              (lastSegAux ws (0, 0) (0, 0)).1))))) ∧
    interpolate_waypoint_n_meters_ahead [(0.3, -0.3)] 20
      = (Real.sqrt 200, -Real.sqrt 200) := by
  constructor
  · have h := interpGo_extrapolate meters ws 0 (0, 0) (0, 0)
      (by simpa [totalPathLength] using h2)
    simpa [interpolate_waypoint_n_meters_ahead, totalPathLength] using h
  · have hs2 : (0:ℝ) < Real.sqrt 2 := Real.sqrt_pos.mpr (by norm_num)
    have hss : Real.sqrt 2 * Real.sqrt 2 = 2 :=
      Real.mul_self_sqrt (by norm_num)
    have hn : norm2 (vsub ((0.3 : ℝ), (-0.3 : ℝ)) ((0 : ℝ), (0 : ℝ)))
        = 0.3 * Real.sqrt 2 := by
      simp only [norm2, vsub]
      rw [show ((0.3:ℝ) - 0) ^ 2 + ((-0.3:ℝ) - 0) ^ 2 = 0.3 ^ 2 * 2 by
        norm_num]
      rw [Real.sqrt_mul (by positivity) 2,
        Real.sqrt_sq (by norm_num : (0:ℝ) ≤ 0.3)]
    have h200 : Real.sqrt 200 = 10 * Real.sqrt 2 := by
      rw [show (200:ℝ) = 10 ^ 2 * 2 by norm_num,
        Real.sqrt_mul (by positivity) 2,
        Real.sqrt_sq (by norm_num : (0:ℝ) ≤ 10)]
    have hcond : ¬ ((20:ℝ) ≤ 0
        + norm2 (vsub ((0.3 : ℝ), (-0.3 : ℝ)) ((0 : ℝ), (0 : ℝ)))) := by
      rw [hn]
      push_neg
      nlinarith [hss, Real.sqrt_nonneg 2, sq_nonneg (Real.sqrt 2 - 2)]
    simp only [interpolate_waypoint_n_meters_ahead, interpGo]
    rw [if_neg hcond]
    rw [hn, h200]
    simp only [vadd, smul, sdiv, vsub, Prod.mk.injEq]
    constructor
    · field_simp
      ring_nf
      nlinarith [hss]
    · field_simp
      ring_nf
      nlinarith [hss]

/-- C3 (amended): whenever the computed target speed converted to km/h is
below 3.5, the returned throttle is 0, the returned steering is 0, and the
returned brake is the braking PID's output on `current_speed`, floored at
0.05 and then clamped to [0, 1]; in particular the brake is never below
0.05. -/
theorem near_stop_branch (c : VehicleController) (speed : ℝ)
    (waypoints : List (ℝ × ℝ)) (u : Bool)
    (h : c.targetSpeed waypoints * 60 * 60 / 1000 < 3.5) :
    (c.step speed waypoints u).1.throttle = 0 ∧
    (c.step speed waypoints u).1.steer = 0 ∧
    (c.step speed waypoints u).1.brake
      = clip (max (c.brake_control.step speed u).1 0.05) 0 1 ∧
    0.05 ≤ (c.step speed waypoints u).1.brake := by
  simp only [VehicleController.step]
  rw [if_pos h]
  refine ⟨by simp [clip], rfl, rfl, ?_⟩
  show (0.05 : ℝ) ≤ clip (max (c.brake_control.step speed u).1 0.05) 0 1
  rw [clip]
  have h1 : (0.05 : ℝ) ≤ max (max (c.brake_control.step speed u).1 0.05) 0 :=
    le_trans (le_max_right _ _) (le_max_left _ _)
  exact le_min h1 (by norm_num)

lemma norm2_eval (a b c : ℝ) (h : 0 ≤ c) (hc : a ^ 2 + b ^ 2 = c ^ 2) :
    norm2 (a, b) = c := by
  simp only [norm2]; rw [hc, Real.sqrt_sq h]

/-- The output of a freshly constructed PID controller is purely
proportional: the stored integral is 0 and there is no previous error. -/
lemma mkPidController_step_out (e : ℝ) (u : Bool) (dt p i d disc : ℝ) :
    ((mkPidController dt p i d disc).step e u).1 = p * e := by
  cases u <;> simp [mkPidController, PidController.step]

/-- Target speed of a default-constructed controller on the single
waypoint `(0.01, 0)`. -/
lemma targetSpeed_001 (conv : EReal → ℝ) :
    (mkVehicleController conv).targetSpeed [(0.01, 0)] = 0.02 := by
  have hn : norm2 (vsub ((0 : ℝ), (0.01 : ℝ)) (0, 0)) = 0.01 := by
    simp only [vsub]
    exact norm2_eval _ _ _ (by norm_num) (by norm_num)
  simp only [VehicleController.targetSpeed, mkVehicleController, swapXY,
    List.map, segmentDists_cons, segmentDists_nil, List.take, listMean, hn]
  norm_num

/-- Target speed of a default-constructed controller on the single
waypoint `(0, 5)`. -/
lemma targetSpeed_05 (conv : EReal → ℝ) :
    (mkVehicleController conv).targetSpeed [(0, 5)] = 10 := by
  have hn : norm2 (vsub ((5 : ℝ), (0 : ℝ)) (0, 0)) = 5 := by
    simp only [vsub]
    exact norm2_eval _ _ _ (by norm_num) (by norm_num)
  simp only [VehicleController.targetSpeed, mkVehicleController, swapXY,
    List.map, segmentDists_cons, segmentDists_nil, List.take, listMean, hn]
  norm_num

/-- Interpolating the swapped single-waypoint path `[(5, 0)]` at the 5-unit
look-ahead hits the waypoint exactly. -/
lemma interpolate_5_0 :
    interpolate_waypoint_n_meters_ahead [(5, 0)] 5 = (5, 0) := by
  have hn : norm2 (vsub ((5 : ℝ), (0 : ℝ)) (0, 0)) = 5 := by
    simp only [vsub]
    exact norm2_eval _ _ _ (by norm_num) (by norm_num)
  simp only [interpolate_waypoint_n_meters_ahead, interpGo, hn]
  rw [if_pos (by norm_num)]
  simp only [vadd, smul, sdiv, vsub, Prod.mk.injEq]
  norm_num

/-- Witness for C6 at the single waypoint `(3, 4)` and distance 10: the
extrapolated point is `(6, 8)`. -/
theorem interpolate_extrapolates_witness :
    interpolate_waypoint_n_meters_ahead [(3, 4)] 10 = (6, 8) := by
  have hn : norm2 ((3 : ℝ), (4 : ℝ)) = 5 := by
    simp only [norm2]
    rw [show (3:ℝ) ^ 2 + (4:ℝ) ^ 2 = 5 ^ 2 by norm_num,
      Real.sqrt_sq (by norm_num : (0:ℝ) ≤ 5)]
  have ht : totalPathLength [((3:ℝ), (4:ℝ))] = 5 := by
    simp [totalPathLength, segmentDists_cons, segmentDists_nil, vsub]
    simpa using hn
  have h := (interpolate_extrapolates [(3, 4)] 10 (by simp)
    (by rw [ht]; norm_num)).1
  rw [h, ht]
  simp [lastSegAux_cons, lastSegAux_nil, hn, vadd, smul, sdiv, vsub,
    Prod.ext_iff]
  norm_num

lemma turning_radius_5_0 : turning_radius_to 5 0 = ((5 / 2 : ℝ) : EReal) := by
  rw [turning_radius_to, if_neg (by norm_num : (5:ℝ) ≠ 0)]
  exact congrArg (fun r : ℝ => (r : EReal))
    (by rw [abs_of_pos (by norm_num : (0:ℝ) < 5)]; norm_num)

/-- Steering returned by a default-constructed controller with injected
conversion `conv` on waypoints `[(0, 5)]`: the raw conversion output at
radius `5/2`, with no clamping applied. -/
lemma step_05_steer (conv : EReal → ℝ) :
    ((mkVehicleController conv).step 0 [(0, 5)] true).1.steer
      = conv ((5 / 2 : ℝ) : EReal) := by
  have hcond : ¬ ((mkVehicleController conv).targetSpeed [(0, 5)]
      * 60 * 60 / 1000 < 3.5) := by
    rw [targetSpeed_05]; norm_num
  have hmap : List.map swapXY [((0:ℝ), (5:ℝ))] = [(5, 0)] := by
    simp [swapXY]
  have hlt : ¬ ((5:ℝ) < 0) := by norm_num
  simp only [VehicleController.step]
  rw [if_neg hcond]
  simp [hmap, interpolate_5_0, hlt, mkVehicleController, turning_radius_5_0]

/-- C3 (counterexample to the claim as stated): from a fresh default
controller at `current_speed = 10` with waypoints `[(0.01, 0)]`, the target
speed is below the 3.5 km/h threshold, the braking PID's output floored at
0.05 is 5, yet the returned brake is 1 (the clamp to [0, 1] applies after
the floor), so the returned brake does not equal the floored PID output. -/
theorem near_stop_brake_counterexample :
    (exampleController.step 10 [(0.01, 0)] true).1.brake = 1 ∧
    max ((exampleController.brake_control.step 10 true).1) 0.05 = 5 ∧
    (exampleController.step 10 [(0.01, 0)] true).1.brake
      ≠ max ((exampleController.brake_control.step 10 true).1) 0.05 := by
  have hb : (exampleController.brake_control.step 10 true).1 = 5 := by
    have h := mkPidController_step_out 10 true 0.1 0.5 0.05 0.02 0
    rw [show exampleController.brake_control
        = mkPidController 0.1 0.5 0.05 0.02 0 from rfl, h]
    norm_num
  have hmax : max ((exampleController.brake_control.step 10 true).1) 0.05
      = 5 := by
    rw [hb]; exact max_eq_left (by norm_num)
  have hcond : exampleController.targetSpeed [(0.01, 0)] * 60 * 60 / 1000
      < 3.5 := by
    rw [show exampleController = mkVehicleController (fun _ => 0) from rfl,
      targetSpeed_001]
    norm_num
  have hbrake : (exampleController.step 10 [(0.01, 0)] true).1.brake = 1 := by
    simp only [VehicleController.step]
    rw [if_pos hcond]
    show clip (max ((exampleController.brake_control.step 10 true).1) 0.05)
      0 1 = 1
    rw [hmax, clip]
    rw [max_eq_left (by norm_num : (0:ℝ) ≤ 5)]
    exact min_eq_right (by norm_num)
  exact ⟨hbrake, hmax, by rw [hbrake, hmax]; norm_num⟩

/-- Witness for C3 (amended) at the concrete near-stop input: fresh default
controller, `current_speed = 10`, waypoints `[(0.01, 0)]`. -/
theorem near_stop_branch_witness :
    (exampleController.step 10 [(0.01, 0)] true).1.throttle = 0 ∧
    (exampleController.step 10 [(0.01, 0)] true).1.steer = 0 ∧
    (exampleController.step 10 [(0.01, 0)] true).1.brake
      = clip (max ((exampleController.brake_control.step 10 true).1) 0.05)
          0 1 ∧
    0.05 ≤ (exampleController.step 10 [(0.01, 0)] true).1.brake :=
  near_stop_branch exampleController 10 [(0.01, 0)] true
    (by rw [show exampleController = mkVehicleController (fun _ => 0)
          from rfl, targetSpeed_001]
        norm_num)

/-- C2 (evaluation at the failing input): with the spec-conforming geometry
conversion `EReal.toReal` (infinite radius maps to 0), current speed 0 and
waypoints `[(0, 5)]`, the returned `steer` field is the raw steering angle
`5/2`, outside the documented range [-1, 1] — the clipped `steering`
variable computed by the source is not the value returned. -/
theorem vehicle_step_steer_exceeds_range :
    (exampleController2.step 0 [(0, 5)] true).1.steer = 5 / 2 ∧
    1 < (exampleController2.step 0 [(0, 5)] true).1.steer := by
  have h : (exampleController2.step 0 [(0, 5)] true).1.steer
      = EReal.toReal ((5 / 2 : ℝ) : EReal) := by
    rw [show exampleController2 = mkVehicleController EReal.toReal from rfl]
    exact step_05_steer EReal.toReal
  rw [EReal.toReal_coe] at h
  exact ⟨h, by rw [h]; norm_num⟩

/-- C4 (evaluation of the embedded pipeline at the failing input): with the
logging statements — which bind no names used by the computation — modelled
as absent, the embedded `VehicleController.step` completes and returns the
triple `(1, 0, 0)` at current speed 0 and waypoints `[(0, 5)]`.  In the
source this very call raises `NameError`: `logger` is never imported in
`controller.py`. -/
theorem vehicle_step_embedding_eval :
    (exampleController.step 0 [(0, 5)] true).1
      = { throttle := 1, steer := 0, brake := 0 } := by
  rw [show exampleController = mkVehicleController (fun _ => 0) from rfl]
  have hcond : ¬ ((mkVehicleController (fun _ : EReal => (0:ℝ))).targetSpeed
      [(0, 5)] * 60 * 60 / 1000 < 3.5) := by
    rw [targetSpeed_05]; norm_num
  have hacc : (mkVehicleController (fun _ : EReal => (0:ℝ))).targetSpeed
      [(0, 5)] - 0 = 10 := by
    rw [targetSpeed_05]; norm_num
  have hmap : List.map swapXY [((0:ℝ), (5:ℝ))] = [(5, 0)] := by
    simp [swapXY]
  have hlt : ¬ ((5:ℝ) < 0) := by norm_num
  have h1 := mkPidController_step_out 10 true 0.1 0.5 0.05 0.02 0
  have h2 := mkPidController_step_out (-10) true 0.1 0.5 0.05 0.02 0
  have hthrottle : clip ((0.5:ℝ) * 10) 0 1 = 1 := by
    rw [clip, max_eq_left (by norm_num), min_eq_right (by norm_num)]
  have hbrake : clip (-((0.5:ℝ) * 10)) 0 1 = 0 := by
    rw [clip, max_eq_right (by norm_num), min_eq_left (by norm_num)]
  simp only [VehicleController.step]
  rw [if_neg hcond, hacc]
  simp [mkVehicleController, h1, h2, hmap, interpolate_5_0, hlt,
    hthrottle, hbrake]

end Intervention
